import Mathlib

/-!
Verification of the Comic-AI plan/quota core and the wizard front-end.

The quota/admission core (PlanCatalog, QuotaLedger, EntitlementChecker,
GenerationSession) is described by the repository README and the spec but its
implementation is not under src/; those definitions are modelled from the
spec.  The front-end components (StoryEditor, pricing page, watermark notice,
scene preview, generation simulation) are embedded from the source files.
-/

namespace ComicAI

/-- Plan tiers, from the wizard store and the README (FREE / PRO / CREATIVE). -/
inductive PlanTier where
  | Free
  | Pro
  | Creative
deriving DecidableEq, Repr

/-- Modelled from the spec: PlanEntitlement record of §3 (the backend models
are not under src/). -/
structure PlanEntitlement where
  maxPagesPerComic : Nat
  monthlyGenerationAllowance : Nat
  watermarkRequired : Bool
deriving DecidableEq, Repr

/-- Modelled from the spec: PlanCatalog.entitlementFor (§4.1), matching the
README plan table (FREE: no generation; PRO: 3 pages, watermark, 50/month;
CREATIVE: 10 pages, no watermark, 200/month). -/
def entitlementFor : PlanTier → PlanEntitlement
  | .Free => ⟨0, 0, true⟩
  | .Pro => ⟨3, 50, true⟩
  | .Creative => ⟨10, 200, false⟩

/-- Page limit shown to the user, from the StoryEditor component
(`limits` object in src/unnamed/part_001): pages count and label per plan. -/
structure UiLimit where
  pages : Nat
  label : String
deriving DecidableEq, Repr

/-- The StoryEditor's `limits` table (src/unnamed/part_001, lines 18-24). -/
def storyEditorLimits : PlanTier → UiLimit
  | .Free => ⟨1, "1 page per comic"⟩
  | .Pro => ⟨3, "Up to 3 pages"⟩
  | .Creative => ⟨99, "Unlimited pages"⟩

/-- The ReviewSection's pages label
(src/frontend/components/create/review-section.tsx). -/
def reviewPagesLabel : PlanTier → String
  | .Free => "1 Page"
  | .Pro => "3 Pages"
  | .Creative => "Unlimited"

/-- The pricing page's feature lists per plan card
(src/frontend/app/(protected)/pricing/page.tsx, `plans` array). -/
def pricingFeatures : PlanTier → List String
  | .Free => ["3 Comics per month", "Standard Quality", "Watermarked", "Public Gallery"]
  | .Pro => ["50 Comics per month", "High Quality", "No Watermark", "Private Gallery",
      "Priority Generation"]
  | .Creative => ["Unlimited Comics", "Ultra Quality", "Custom Styles", "Commercial License",
      "API Access"]

/-- Whether the WatermarkNotice component renders
(src/frontend/components/viewer/watermark-notice.tsx): it returns null
exactly when the plan is Creative. -/
def watermarkNoticeShown (plan : PlanTier) : Bool :=
  if plan = .Creative then false else true

/-- Modelled from the spec: a per-user QuotaWindow (§3).  `windowEnd` is
derived from `windowStart` by the calendar-month function, kept here as the
stored end of the window; `consumed` is the non-negative counter. -/
structure QuotaWindow where
  windowStart : Nat
  windowEnd : Nat
  consumed : Nat
deriving DecidableEq, Repr

/-- Modelled from the spec: the fresh window created at rollover or lazy
creation (`windowStart = now`, `consumed = 0`, end one calendar month later;
the calendar-month arithmetic is abstracted as `addMonth`). -/
def freshWindow (addMonth : Nat → Nat) (now : Nat) : QuotaWindow :=
  ⟨now, addMonth now, 0⟩

/-- Modelled from the spec: QuotaLedger.currentWindow (§4.2) for one user.
The per-user ledger state is `Option QuotaWindow` (none before lazy
creation).  Returns the existing window if `now < windowEnd`, otherwise
atomically creates/replaces a fresh window; the second component is the
ledger state after the call. -/
def currentWindow (addMonth : Nat → Nat) (st : Option QuotaWindow) (now : Nat) :
    QuotaWindow × Option QuotaWindow :=
  match st with
  | some w =>
      if now < w.windowEnd then (w, some w)
      else (freshWindow addMonth now, some (freshWindow addMonth now))
  | none => (freshWindow addMonth now, some (freshWindow addMonth now))

/-- Modelled from the spec: QuotaLedger.tryConsume (§4.2): atomically reads
the current window (rolling over if needed) and increments `consumed` by
`amount` with no ceiling check; a negative `amount` is the best-effort
refund, clamped at zero. -/
def tryConsume (addMonth : Nat → Nat) (st : Option QuotaWindow) (amount : Int)
    (now : Nat) : QuotaWindow × Option QuotaWindow :=
  let w := (currentWindow addMonth st now).1
  let updated : QuotaWindow := ⟨w.windowStart, w.windowEnd, (w.consumed + amount).toNat⟩
  (updated, some updated)

/-- Modelled from the spec: AdmissionError taxonomy (§4.3, §7). -/
inductive AdmissionError where
  | PlanLimitExceeded
  | QuotaExhausted (resetsAt : Nat)
deriving DecidableEq, Repr

/-- Modelled from the spec: the Admission result, carrying the entitlement
and window snapshots (§4.3 step 5). -/
structure Admission where
  entitlementSnapshot : PlanEntitlement
  windowSnapshot : QuotaWindow
deriving DecidableEq, Repr

/-- Modelled from the spec: EntitlementChecker.admit (§4.3; the checker is
not under src/).  Steps 4 and 5 are executed as one atomic conditional
increment on the ledger, as the spec requires.  The second component is the
ledger state after the call. -/
def admission (addMonth : Nat → Nat) (st : Option QuotaWindow) (tier : PlanTier)
    (requestedPages : Nat) (now : Nat) :
    Except AdmissionError Admission × Option QuotaWindow :=
  let ent := entitlementFor tier
  if ent.monthlyGenerationAllowance = 0 ∨ ent.maxPagesPerComic < requestedPages then
    (.error .PlanLimitExceeded, st)
  else
    let res := currentWindow addMonth st now
    let w := res.1
    if ent.monthlyGenerationAllowance < w.consumed + 1 then
      (.error (.QuotaExhausted w.windowEnd), res.2)
    else
      let updated : QuotaWindow := ⟨w.windowStart, w.windowEnd, w.consumed + 1⟩
      (.ok ⟨ent, updated⟩, some updated)

/-- One admission attempt of a sequence: the requested pages and the time of
the attempt (all attempts are for the same user and tier). -/
structure AttemptInput where
  requestedPages : Nat
  now : Nat
deriving DecidableEq, Repr

/-- Modelled from the spec: a serialization of concurrent admission attempts
(§5 requires every check-and-increment to be one atomic storage operation,
so any concurrent execution is equivalent to some sequence of whole
admission steps). -/
def runAdmissions (addMonth : Nat → Nat) (tier : PlanTier) :
    List AttemptInput → Option QuotaWindow →
      List (Except AdmissionError Admission) × Option QuotaWindow
  | [], st => ([], st)
  | a :: rest, st =>
      let r := admission addMonth st tier a.requestedPages a.now
      let tail := runAdmissions addMonth tier rest r.2
      (r.1 :: tail.1, tail.2)

/-- Whether an admission result is a successful Admission. -/
def isOkResult : Except AdmissionError Admission → Bool
  | .ok _ => true
  | .error _ => false

/-- Number of successful admissions in a list of results. -/
def okCount (rs : List (Except AdmissionError Admission)) : Nat :=
  rs.countP isOkResult

/-- Modelled from the spec: the failure reason carried on a Failed session
(§4.4): technical (collaborator error, timeout) or policy (content
rejected). -/
inductive FailureReason where
  | technical
  | policy
deriving DecidableEq, Repr

/-- Modelled from the spec: settling a Failed session (§4.4): a technical
failure triggers the best-effort refund `tryConsume(userId, -1, now)`; a
policy failure leaves the ledger untouched. -/
def failSettle (addMonth : Nat → Nat) (st : Option QuotaWindow)
    (reason : FailureReason) (now : Nat) : Option QuotaWindow :=
  match reason with
  | .technical => (tryConsume addMonth st (-1) now).2
  | .policy => st

/-- Modelled from the spec: the states of a GenerationSession for one
GenerationRequest id (§3, §4.4). -/
inductive SessionState where
  | Pending (tier : PlanTier) (requestedPages : Nat)
  | Admitted (snapshot : Admission)
  | Running (snapshot : Admission)
  | Succeeded
  | Failed (reason : FailureReason)
  | Rejected
deriving DecidableEq, Repr

/-- Whether a session state is terminal (Succeeded, Failed, Rejected). -/
def isTerminal : SessionState → Bool
  | .Succeeded => true
  | .Failed _ => true
  | .Rejected => true
  | _ => false

/-- Modelled from the spec: the GenerationSession transition relation
(§4.4) over (session state, per-user ledger state).  Pending moves to
Admitted or Rejected through the admission check; Admitted is handed off to
Running; Running resolves to Succeeded, or to Failed with the refund rule
applied by reason. -/
inductive SessionStep (addMonth : Nat → Nat) :
    SessionState × Option QuotaWindow → SessionState × Option QuotaWindow → Prop where
  | admissionOk (tier : PlanTier) (pages now : Nat) (st st₂ : Option QuotaWindow)
      (a : Admission)
      (h : admission addMonth st tier pages now = (.ok a, st₂)) :
      SessionStep addMonth (.Pending tier pages, st) (.Admitted a, st₂)
  | admissionErr (tier : PlanTier) (pages now : Nat) (st st₂ : Option QuotaWindow)
      (e : AdmissionError)
      (h : admission addMonth st tier pages now = (.error e, st₂)) :
      SessionStep addMonth (.Pending tier pages, st) (.Rejected, st₂)
  | handoff (a : Admission) (st : Option QuotaWindow) :
      SessionStep addMonth (.Admitted a, st) (.Running a, st)
  | succeed (a : Admission) (st : Option QuotaWindow) :
      SessionStep addMonth (.Running a, st) (.Succeeded, st)
  | failTechnical (a : Admission) (st : Option QuotaWindow) (now : Nat) :
      SessionStep addMonth (.Running a, st)
        (.Failed .technical, failSettle addMonth st .technical now)
  | failPolicy (a : Admission) (st : Option QuotaWindow) (now : Nat) :
      SessionStep addMonth (.Running a, st)
        (.Failed .policy, failSettle addMonth st .policy now)

/-- Statuses of the wizard store's generationStatus field, from its uses in
the components (idle, processing, success, failed). -/
inductive GenStatus where
  | idle
  | processing
  | success
  | failed
deriving DecidableEq, Repr

/-- State of the generation simulation loop of the GenerationView in
src/unnamed/part_000: the store status and the progress value. -/
structure SimState where
  status : GenStatus
  progress : ℚ
deriving DecidableEq, Repr

/-- The clamp in the simulation loop: `if (currentProgress > 100)
currentProgress = 100` (src/unnamed/part_000). -/
def clampProgress (p : ℚ) : ℚ :=
  if p > 100 then 100 else p

/-- One interval tick of the simulation loop (src/unnamed/part_000, lines
56-94): while the status is processing, add the increment (the code draws it
as Math.random() * 5), clamp at 100, and set the status to success once the
progress reaches 100; the loop never assigns any other status. -/
def simStep (s : SimState) (inc : ℚ) : SimState :=
  if s.status = .processing then
    let p := clampProgress (s.progress + inc)
    ⟨if 100 ≤ p then .success else .processing, p⟩
  else s

/-- A run of the simulation loop over a list of tick increments. -/
def simRun (s : SimState) (incs : List ℚ) : SimState :=
  incs.foldl simStep s

/-- A scene produced by the scene-preview step, from the object literal in
src/frontend/components/wizard/step-story.tsx. -/
structure Scene where
  id : String
  pageNumber : Nat
  panelNumber : Nat
  description : String
deriving DecidableEq, Repr

/-- The mock scene generation of handlePreviewScenes
(src/frontend/components/wizard/step-story.tsx, lines 12-30):
`Array.from({length: 4})` mapped to scenes with pageNumber 1, panelNumber
i + 1, and a description built from the first 20 characters of the story.
The selected plan is not an input of this computation. -/
def previewScenes (storyText : String) : List Scene :=
  (List.range 4).map fun i =>
    ⟨"scene-" ++ toString i, 1, i + 1,
      "A scene based on: \"" ++ storyText.take 20 ++ "...\""⟩

end ComicAI

namespace ComicAI

/-- Claim C2: for each plan tier, entitlementFor returns the fixed triple
(Free: 0/0/watermark, Pro: 3/50/watermark, Creative: 10/200/no watermark) and
these are the limits the program applies in the UI.  The entitlement triples
(modelled from the spec, matching the README) and the watermark notice do
agree, but the page limits the UI shows do not: the StoryEditor displays
1 page for Free and 99 pages for Creative, and the pricing page advertises
"3 Comics per month" on Free and "No Watermark" on Pro, contradicting the
README's plan table that the claim restates. -/
theorem c2_ui_limits_contradict_entitlements :
    entitlementFor .Free = ⟨0, 0, true⟩ ∧
    entitlementFor .Pro = ⟨3, 50, true⟩ ∧
    entitlementFor .Creative = ⟨10, 200, false⟩ ∧
    (storyEditorLimits .Free).pages = 1 ∧
    (storyEditorLimits .Creative).pages = 99 ∧
    reviewPagesLabel .Free = "1 Page" ∧
    "3 Comics per month" ∈ pricingFeatures .Free ∧
    "No Watermark" ∈ pricingFeatures .Pro ∧
    watermarkNoticeShown .Free = true ∧
    watermarkNoticeShown .Pro = true ∧
    watermarkNoticeShown .Creative = false := by
  refine ⟨rfl, rfl, rfl, rfl, rfl, rfl, ?_, ?_, rfl, rfl, rfl⟩
  · simp [pricingFeatures]
  · simp [pricingFeatures]

/-- Claim C3: whenever the tier's allowance is zero or the requested pages
exceed the tier's page limit, admission fails with PlanLimitExceeded and the
ledger state is returned unchanged (no mutation of consumed); in particular a
Free-tier request for one page is always rejected this way. -/
theorem c3_plan_limit_rejection (addMonth : Nat → Nat) (st : Option QuotaWindow)
    (tier : PlanTier) (requestedPages now : Nat)
    (h : (entitlementFor tier).monthlyGenerationAllowance = 0 ∨
      (entitlementFor tier).maxPagesPerComic < requestedPages) :
    admission addMonth st tier requestedPages now = (.error .PlanLimitExceeded, st) ∧
    admission addMonth st .Free 1 now = (.error .PlanLimitExceeded, st) := by
  constructor
  · simp only [admission]
    rw [if_pos h]
  · simp [admission, entitlementFor]

/-- Witness for C3: a Free-tier request for one page at a concrete ledger
state is rejected with PlanLimitExceeded and the state is unchanged. -/
theorem c3_plan_limit_rejection_witness :
    admission (fun t => t + 30) (some ⟨0, 30, 0⟩) .Free 1 5 =
      (.error .PlanLimitExceeded, some ⟨0, 30, 0⟩) :=
  (c3_plan_limit_rejection (fun t => t + 30) (some ⟨0, 30, 0⟩) .Free 1 5 (Or.inl rfl)).1

/-- Claim C4: for a request that passes the plan-limit gate, if
`consumed + 1` would exceed the allowance the admission fails with
QuotaExhausted carrying the window's end; otherwise exactly one unit is
consumed (the increment is 1 regardless of requestedPages) and the admission
returns the entitlement and updated-window snapshots. -/
theorem c4_quota_gate (addMonth : Nat → Nat) (st : Option QuotaWindow)
    (tier : PlanTier) (requestedPages now : Nat)
    (hallow : (entitlementFor tier).monthlyGenerationAllowance ≠ 0)
    (hpages : requestedPages ≤ (entitlementFor tier).maxPagesPerComic) :
    ((entitlementFor tier).monthlyGenerationAllowance <
        (currentWindow addMonth st now).1.consumed + 1 →
      admission addMonth st tier requestedPages now =
        (.error (.QuotaExhausted (currentWindow addMonth st now).1.windowEnd),
          (currentWindow addMonth st now).2)) ∧
    ((currentWindow addMonth st now).1.consumed + 1 ≤
        (entitlementFor tier).monthlyGenerationAllowance →
      admission addMonth st tier requestedPages now =
        (.ok ⟨entitlementFor tier,
            ⟨(currentWindow addMonth st now).1.windowStart,
              (currentWindow addMonth st now).1.windowEnd,
              (currentWindow addMonth st now).1.consumed + 1⟩⟩,
          some ⟨(currentWindow addMonth st now).1.windowStart,
            (currentWindow addMonth st now).1.windowEnd,
            (currentWindow addMonth st now).1.consumed + 1⟩)) := by
  have hgate : ¬((entitlementFor tier).monthlyGenerationAllowance = 0 ∨
      (entitlementFor tier).maxPagesPerComic < requestedPages) := by
    push_neg
    exact ⟨hallow, hpages⟩
  constructor
  · intro hex
    simp only [admission]
    rw [if_neg hgate, if_pos hex]
  · intro hok
    simp only [admission]
    rw [if_neg hgate, if_neg (by omega)]

/-- Witness for C4, the spec's Pro scenario: with consumed 49 of 50 an
admission succeeds and consumed becomes 50; an immediate second admission is
rejected with QuotaExhausted carrying the window end. -/
theorem c4_quota_gate_witness :
    admission (fun t => t + 30) (some ⟨0, 30, 49⟩) .Pro 3 5 =
      (.ok ⟨⟨3, 50, true⟩, ⟨0, 30, 50⟩⟩, some ⟨0, 30, 50⟩) ∧
    admission (fun t => t + 30) (some ⟨0, 30, 50⟩) .Pro 3 6 =
      (.error (.QuotaExhausted 30), some ⟨0, 30, 50⟩) := by
  constructor
  · exact (c4_quota_gate (fun t => t + 30) (some ⟨0, 30, 49⟩) .Pro 3 5
      (by decide) (by decide)).2 (by decide)
  · exact (c4_quota_gate (fun t => t + 30) (some ⟨0, 30, 50⟩) .Pro 3 6
      (by decide) (by decide)).1 (by decide)

/-- Claim C7: currentWindow is idempotent within a window: two calls with
times before the window's end both return the same window with consumed
unchanged and leave the state as it was; the stored window is replaced only
when now has reached or passed windowEnd. -/
theorem c7_currentWindow_idempotent (addMonth : Nat → Nat) (w : QuotaWindow)
    (now₁ now₂ : Nat) (h₁ : now₁ < w.windowEnd) (h₂ : now₂ < w.windowEnd) :
    currentWindow addMonth (some w) now₁ = (w, some w) ∧
    currentWindow addMonth (currentWindow addMonth (some w) now₁).2 now₂ = (w, some w) ∧
    ∀ now, (currentWindow addMonth (some w) now).2 ≠ some w → w.windowEnd ≤ now := by
  refine ⟨?_, ?_, ?_⟩
  · simp [currentWindow, if_pos h₁]
  · simp [currentWindow, if_pos h₁, if_pos h₂]
  · intro now hne
    by_contra hlt
    push_neg at hlt
    exact hne (by simp [currentWindow, if_pos hlt])

/-- One admission step taken at a time inside the window keeps the same
window end, adds one to consumed exactly when it succeeds, and a success
never takes consumed past the allowance. -/
lemma admission_step_within_window (addMonth : Nat → Nat) (tier : PlanTier)
    (pages now : Nat) (w : QuotaWindow) (hnow : now < w.windowEnd) :
    ∃ w₂, (admission addMonth (some w) tier pages now).2 = some w₂ ∧
      w₂.windowEnd = w.windowEnd ∧
      w₂.consumed = w.consumed +
        (if isOkResult (admission addMonth (some w) tier pages now).1 then 1 else 0) ∧
      (isOkResult (admission addMonth (some w) tier pages now).1 = true →
        w₂.consumed ≤ (entitlementFor tier).monthlyGenerationAllowance) := by
  have hcw : currentWindow addMonth (some w) now = (w, some w) := by
    simp [currentWindow, if_pos hnow]
  simp only [admission, hcw]
  by_cases hgate : (entitlementFor tier).monthlyGenerationAllowance = 0 ∨
      (entitlementFor tier).maxPagesPerComic < pages
  · rw [if_pos hgate]
    exact ⟨w, rfl, rfl, by simp [isOkResult], by simp [isOkResult]⟩
  · rw [if_neg hgate]
    by_cases hceil : (entitlementFor tier).monthlyGenerationAllowance < w.consumed + 1
    · rw [if_pos hceil]
      exact ⟨w, rfl, rfl, by simp [isOkResult], by simp [isOkResult]⟩
    · rw [if_neg hceil]
      exact ⟨⟨w.windowStart, w.windowEnd, w.consumed + 1⟩, rfl, rfl,
        by simp [isOkResult], fun _ => Nat.le_of_not_lt hceil⟩

/-- Invariant of a sequence of admission attempts inside one window: the
state stays a window with the same end, consumed grows by exactly the number
of successes, and after at least one success consumed is within the
allowance. -/
lemma runAdmissions_within_window (addMonth : Nat → Nat) (tier : PlanTier) :
    ∀ (attempts : List AttemptInput) (w : QuotaWindow),
      (∀ a ∈ attempts, a.now < w.windowEnd) →
      ∃ w₂, (runAdmissions addMonth tier attempts (some w)).2 = some w₂ ∧
        w₂.windowEnd = w.windowEnd ∧
        w₂.consumed = w.consumed +
          okCount (runAdmissions addMonth tier attempts (some w)).1 ∧
        (0 < okCount (runAdmissions addMonth tier attempts (some w)).1 →
          w₂.consumed ≤ (entitlementFor tier).monthlyGenerationAllowance)
  | [], w, _ => ⟨w, rfl, rfl, by simp [runAdmissions, okCount], by simp [runAdmissions, okCount]⟩
  | a :: rest, w, h => by
    obtain ⟨w₁, hst₁, hend₁, hcons₁, hok₁⟩ :=
      admission_step_within_window addMonth tier a.requestedPages a.now w
        (h a (List.mem_cons_self a rest))
    have hrest : ∀ b ∈ rest, b.now < w₁.windowEnd := by
      intro b hb
      rw [hend₁]
      exact h b (List.mem_cons_of_mem a hb)
    obtain ⟨w₂, hst₂, hend₂, hcons₂, hok₂⟩ :=
      runAdmissions_within_window addMonth tier rest w₁ hrest
    refine ⟨w₂, ?_, ?_, ?_, ?_⟩
    · simp only [runAdmissions]
      rw [hst₁]
      exact hst₂
    · rw [hend₂, hend₁]
    · simp only [runAdmissions]
      rw [hst₁]
      simp only [okCount, List.countP_cons]
      simp only [okCount] at hcons₂
      by_cases hb : isOkResult (admission addMonth (some w) tier a.requestedPages a.now).1 = true
      · rw [if_pos hb]
        rw [if_pos hb] at hcons₁
        omega
      · rw [if_neg hb]
        rw [if_neg hb] at hcons₁
        omega
    · simp only [runAdmissions]
      rw [hst₁]
      simp only [okCount, List.countP_cons]
      simp only [okCount] at hcons₂ hok₂
      intro hpos
      by_cases hb : isOkResult (admission addMonth (some w) tier a.requestedPages a.now).1 = true
      · by_cases hrestpos :
          0 < List.countP isOkResult (runAdmissions addMonth tier rest (some w₁)).1
        · exact hok₂ hrestpos
        · have h1 := hok₁ hb
          rw [if_pos hb] at hcons₁
          omega
      · rw [if_neg hb] at hpos
        have hrestpos :
            0 < List.countP isOkResult (runAdmissions addMonth tier rest (some w₁)).1 := by
          omega
        exact hok₂ hrestpos

/-- Claim C1: for any sequence of admission attempts inside one quota window
(each attempt is one atomic conditional check-and-increment, so concurrent
interleavings are covered by these serializations), the number of attempts
that return a successful Admission never exceeds the plan's
monthlyGenerationAllowance. -/
theorem c1_successes_bounded_by_allowance (addMonth : Nat → Nat) (tier : PlanTier)
    (w : QuotaWindow) (attempts : List AttemptInput)
    (h : ∀ a ∈ attempts, a.now < w.windowEnd) :
    okCount (runAdmissions addMonth tier attempts (some w)).1 ≤
      (entitlementFor tier).monthlyGenerationAllowance := by
  obtain ⟨w₂, _, _, hcons, hbound⟩ := runAdmissions_within_window addMonth tier attempts w h
  rcases Nat.eq_zero_or_pos (okCount (runAdmissions addMonth tier attempts (some w)).1) with
    h0 | hpos
  · omega
  · have := hbound hpos
    omega

/-- Witness for C1: with a Pro window already at 49 of 50, three rapid
attempts inside the window yield exactly one success, within the allowance. -/
theorem c1_successes_bounded_by_allowance_witness :
    (∀ a ∈ [(⟨3, 5⟩ : AttemptInput), ⟨3, 6⟩, ⟨3, 7⟩],
      a.now < (⟨0, 30, 49⟩ : QuotaWindow).windowEnd) ∧
    okCount (runAdmissions (fun t => t + 30) .Pro [⟨3, 5⟩, ⟨3, 6⟩, ⟨3, 7⟩]
        (some ⟨0, 30, 49⟩)).1 ≤
      (entitlementFor .Pro).monthlyGenerationAllowance :=
  ⟨by decide, c1_successes_bounded_by_allowance (fun t => t + 30) .Pro ⟨0, 30, 49⟩
    [⟨3, 5⟩, ⟨3, 6⟩, ⟨3, 7⟩] (by decide)⟩

/-- Witness for C7: two reads at times 3 and 4 inside a concrete window
return that window unchanged. -/
theorem c7_currentWindow_idempotent_witness :
    currentWindow (fun t => t + 30) (some ⟨0, 30, 7⟩) 3 = (⟨0, 30, 7⟩, some ⟨0, 30, 7⟩) ∧
    currentWindow (fun t => t + 30)
      (currentWindow (fun t => t + 30) (some ⟨0, 30, 7⟩) 3).2 4 =
      (⟨0, 30, 7⟩, some ⟨0, 30, 7⟩) := by
  have h := c7_currentWindow_idempotent (fun t => t + 30) ⟨0, 30, 7⟩ 3 4
    (by decide) (by decide)
  exact ⟨h.1, h.2.1⟩

/-- A successful admission taken inside the window leaves the ledger at the
same window with consumed incremented by one. -/
lemma admission_ok_state (addMonth : Nat → Nat) (tier : PlanTier)
    (pages now : Nat) (w : QuotaWindow) (a : Admission)
    (hnow : now < w.windowEnd)
    (hok : (admission addMonth (some w) tier pages now).1 = .ok a) :
    (admission addMonth (some w) tier pages now).2 =
      some ⟨w.windowStart, w.windowEnd, w.consumed + 1⟩ := by
  have hcw : currentWindow addMonth (some w) now = (w, some w) := by
    simp [currentWindow, if_pos hnow]
  simp only [admission, hcw] at hok ⊢
  by_cases hgate : (entitlementFor tier).monthlyGenerationAllowance = 0 ∨
      (entitlementFor tier).maxPagesPerComic < pages
  · rw [if_pos hgate] at hok
    exact absurd hok (by simp)
  · rw [if_neg hgate] at hok ⊢
    by_cases hceil : (entitlementFor tier).monthlyGenerationAllowance < w.consumed + 1
    · rw [if_pos hceil] at hok
      exact absurd hok (by simp)
    · rw [if_neg hceil]

/-- Claim C5: for a session that was admitted inside a window and fails
inside the same window, a technical failure refunds exactly the one unit the
admission consumed (net zero on the window), while a policy failure leaves
consumed at its post-admission value. -/
theorem c5_failed_session_refund_rule (addMonth : Nat → Nat) (w : QuotaWindow)
    (tier : PlanTier) (pages tAdmit tFail : Nat) (a : Admission)
    (hAdmit : tAdmit < w.windowEnd) (hFail : tFail < w.windowEnd)
    (hok : (admission addMonth (some w) tier pages tAdmit).1 = .ok a) :
    failSettle addMonth (admission addMonth (some w) tier pages tAdmit).2
      .technical tFail = some ⟨w.windowStart, w.windowEnd, w.consumed⟩ ∧
    failSettle addMonth (admission addMonth (some w) tier pages tAdmit).2
      .policy tFail = some ⟨w.windowStart, w.windowEnd, w.consumed + 1⟩ := by
  have hstate := admission_ok_state addMonth tier pages tAdmit w a hAdmit hok
  constructor
  · have hcw : currentWindow addMonth
        (some ⟨w.windowStart, w.windowEnd, w.consumed + 1⟩) tFail =
        (⟨w.windowStart, w.windowEnd, w.consumed + 1⟩,
          some ⟨w.windowStart, w.windowEnd, w.consumed + 1⟩) := by
      simp only [currentWindow]
      rw [if_pos hFail]
    simp only [failSettle, hstate, tryConsume, hcw]
    have harith : (((w.consumed + 1 : Nat) : Int) + (-1)).toNat = w.consumed := by omega
    rw [harith]
  · simp only [failSettle, hstate]

/-- Witness for C5: a Pro admission at consumed 49 raises consumed to 50;
a technical failure refunds back to 49 while a policy failure keeps 50. -/
theorem c5_failed_session_refund_rule_witness :
    failSettle (fun t => t + 30)
      (admission (fun t => t + 30) (some ⟨0, 30, 49⟩) .Pro 3 5).2 .technical 9 =
      some ⟨0, 30, 49⟩ ∧
    failSettle (fun t => t + 30)
      (admission (fun t => t + 30) (some ⟨0, 30, 49⟩) .Pro 3 5).2 .policy 9 =
      some ⟨0, 30, 50⟩ :=
  c5_failed_session_refund_rule (fun t => t + 30) ⟨0, 30, 49⟩ .Pro 3 5 9
    ⟨⟨3, 50, true⟩, ⟨0, 30, 50⟩⟩ (by decide) (by decide) rfl

/-- Claim C6: Rejected, Succeeded and Failed are terminal: the session step
relation has no transition out of a terminal state, and the only way into
Admitted is a fresh admission check taken from Pending (so a new attempt
needs a new request, starting at Pending, with its own admission check). -/
theorem c6_terminal_states (addMonth : Nat → Nat) (s s₂ : SessionState)
    (st st₂ : Option QuotaWindow) :
    (isTerminal s = true → ¬ SessionStep addMonth (s, st) (s₂, st₂)) ∧
    (∀ a, SessionStep addMonth (s, st) (.Admitted a, st₂) →
      ∃ tier pages now, s = .Pending tier pages ∧
        admission addMonth st tier pages now = (.ok a, st₂)) := by
  constructor
  · intro hterm hstep
    cases hstep <;> simp [isTerminal] at hterm
  · intro a hstep
    cases hstep with
    | admissionOk tier pages now _ _ _ h => exact ⟨tier, pages, now, rfl, h⟩

/-- Witness for C6: Succeeded admits no outgoing step, and a concrete step
into Admitted is exactly a successful admission from Pending. -/
theorem c6_terminal_states_witness :
    (isTerminal .Succeeded = true ∧
      ¬ SessionStep (fun t => t + 30) (SessionState.Succeeded, none)
        (.Pending .Pro 3, none)) ∧
    (∃ tier pages now, SessionState.Pending PlanTier.Pro 3 = .Pending tier pages ∧
      admission (fun t => t + 30) (some ⟨0, 30, 0⟩) tier pages now =
        (.ok ⟨⟨3, 50, true⟩, ⟨0, 30, 1⟩⟩, some ⟨0, 30, 1⟩)) := by
  constructor
  · exact ⟨rfl, (c6_terminal_states (fun t => t + 30) .Succeeded (.Pending .Pro 3)
      none none).1 rfl⟩
  · exact (c6_terminal_states (fun t => t + 30) (.Pending .Pro 3) (.Admitted
      ⟨⟨3, 50, true⟩, ⟨0, 30, 1⟩⟩) (some ⟨0, 30, 0⟩) (some ⟨0, 30, 1⟩)).2
      ⟨⟨3, 50, true⟩, ⟨0, 30, 1⟩⟩
      (SessionStep.admissionOk .Pro 3 5 (some ⟨0, 30, 0⟩) (some ⟨0, 30, 1⟩)
        ⟨⟨3, 50, true⟩, ⟨0, 30, 1⟩⟩ rfl)

/-- Counterexample to C8 as stated: the best-effort refund of §4.4 is an
operation of the system that decreases consumed within the lifetime of the
window (here from 1 to 0 at time 5, inside a window ending at 30). -/
theorem c8_refund_decreases_consumed :
    (tryConsume (fun t => t + 30) (some ⟨0, 30, 1⟩) (-1) 5).1.consumed <
      (⟨0, 30, 1⟩ : QuotaWindow).consumed ∧
    (5 : Nat) < (⟨0, 30, 1⟩ : QuotaWindow).windowEnd ∧
    (tryConsume (fun t => t + 30) (some ⟨0, 30, 1⟩) (-1) 5).2 =
      some ⟨0, 30, 0⟩ := by
  refine ⟨?_, by decide, ?_⟩ <;> decide

/-- Claim C8 as amended: within a window, consumed never decreases under
currentWindow, under admission, or under tryConsume with a non-negative
amount; only a negative-amount tryConsume (the technical-failure refund)
decreases it, by at most the magnitude of the amount, clamped at zero. -/
theorem c8_consumed_monotone_except_refund (addMonth : Nat → Nat)
    (w : QuotaWindow) (tier : PlanTier) (pages now : Nat) (amount : Int)
    (hnow : now < w.windowEnd) :
    (currentWindow addMonth (some w) now).1.consumed = w.consumed ∧
    (∀ w₂, (admission addMonth (some w) tier pages now).2 = some w₂ →
      w.consumed ≤ w₂.consumed) ∧
    (0 ≤ amount →
      w.consumed ≤ (tryConsume addMonth (some w) amount now).1.consumed) ∧
    w.consumed - (-amount).toNat ≤
      (tryConsume addMonth (some w) amount now).1.consumed := by
  have hcw : currentWindow addMonth (some w) now = (w, some w) := by
    simp [currentWindow, if_pos hnow]
  refine ⟨by rw [hcw], ?_, ?_, ?_⟩
  · intro w₂ h₂
    obtain ⟨w₃, hst, _, hcons, _⟩ :=
      admission_step_within_window addMonth tier pages now w hnow
    rw [h₂] at hst
    have hw : w₂ = w₃ := by
      injection hst with hval
    rw [hw, hcons]
    exact Nat.le_add_right _ _
  · intro hamt
    simp only [tryConsume, hcw]
    omega
  · simp only [tryConsume, hcw]
    omega

/-- Witness for C8's amended claim at a concrete window: a read keeps
consumed at 4, a successful admission raises it to 5, and tryConsume with
amount 2 does not lower it. -/
theorem c8_consumed_monotone_except_refund_witness :
    (currentWindow (fun t => t + 30) (some ⟨0, 30, 4⟩) 5).1.consumed =
      (⟨0, 30, 4⟩ : QuotaWindow).consumed ∧
    (⟨0, 30, 4⟩ : QuotaWindow).consumed ≤ (⟨0, 30, 5⟩ : QuotaWindow).consumed ∧
    (⟨0, 30, 4⟩ : QuotaWindow).consumed ≤
      (tryConsume (fun t => t + 30) (some ⟨0, 30, 4⟩) 2 5).1.consumed := by
  have h := c8_consumed_monotone_except_refund (fun t => t + 30) ⟨0, 30, 4⟩
    .Pro 3 5 2 (by decide)
  exact ⟨h.1, h.2.1 ⟨0, 30, 5⟩ rfl, h.2.2.1 (by decide)⟩

/-- Once the simulation state is not processing, the loop leaves it alone. -/
lemma simRun_of_not_processing (incs : List ℚ) (s : SimState)
    (h : s.status ≠ .processing) : simRun s incs = s := by
  induction incs with
  | nil => rfl
  | cons i rest ih =>
      show simRun (simStep s i) rest = s
      rw [simStep, if_neg h]
      exact ih

/-- From processing, the simulation loop only ever reaches processing or
success. -/
lemma simRun_status_cases (incs : List ℚ) : ∀ s : SimState,
    s.status = .processing →
    (simRun s incs).status = .processing ∨ (simRun s incs).status = .success := by
  induction incs with
  | nil => intro s h; exact Or.inl h
  | cons i rest ih =>
      intro s h
      show (simRun (simStep s i) rest).status = _ ∨ (simRun (simStep s i) rest).status = _
      by_cases hp : (100 : ℚ) ≤ clampProgress (s.progress + i)
      · have hs : simStep s i = ⟨.success, clampProgress (s.progress + i)⟩ := by
          rw [simStep, if_pos h]
          simp [hp]
        rw [hs, simRun_of_not_processing rest _ (by simp)]
        exact Or.inr rfl
      · have hs : simStep s i = ⟨.processing, clampProgress (s.progress + i)⟩ := by
          rw [simStep, if_pos h]
          simp [hp]
        rw [hs]
        exact ih _ rfl

/-- If the loop is still processing after a run, no clamp ever fired: the
progress is the exact running sum, and unless the run is empty it is still
below 100. -/
lemma simRun_processing_progress (incs : List ℚ) : ∀ s : SimState,
    s.status = .processing → (simRun s incs).status = .processing →
    (simRun s incs).progress = s.progress + incs.sum ∧
      (incs = [] ∨ (simRun s incs).progress < 100) := by
  induction incs with
  | nil => intro s _ _; exact ⟨by simp [simRun], Or.inl rfl⟩
  | cons i rest ih =>
      intro s h hrun
      have hrun2 : (simRun (simStep s i) rest).status = .processing := hrun
      by_cases hp : (100 : ℚ) ≤ clampProgress (s.progress + i)
      · exfalso
        have hs : simStep s i = ⟨.success, clampProgress (s.progress + i)⟩ := by
          rw [simStep, if_pos h]
          simp [hp]
        rw [hs, simRun_of_not_processing rest _ (by simp)] at hrun2
        exact absurd hrun2 (by simp)
      · have hs : simStep s i = ⟨.processing, clampProgress (s.progress + i)⟩ := by
          rw [simStep, if_pos h]
          simp [hp]
        have hnoclamp : clampProgress (s.progress + i) = s.progress + i := by
          rw [clampProgress, if_neg]
          intro hgt
          exact hp (le_of_eq (by rw [clampProgress, if_pos hgt]))
        have hrest := ih (simStep s i) (by rw [hs]) hrun2
        constructor
        · have hpr : (simRun s (i :: rest)).progress =
              (simStep s i).progress + rest.sum := hrest.1
          rw [hpr, hs]
          simp only [hnoclamp, List.sum_cons]
          ring
        · right
          rcases hrest.2 with hnil | hlt
          · have heq : simRun s (i :: rest) = simStep s i := by
              show simRun (simStep s i) rest = _
              rw [hnil]
              rfl
            rw [heq, hs]
            push_neg at hp
            simpa using hp
          · exact hlt

/-- Claim C9: a simulation run that starts processing can never reach the
failed status, and any run whose increments accumulate to 100 ends with the
status set to success, so the failure branch of this flow is unreachable. -/
theorem c9_simulation_only_succeeds (p₀ : ℚ) (incs : List ℚ) :
    (simRun ⟨.processing, p₀⟩ incs).status ≠ .failed ∧
    (incs ≠ [] → 100 ≤ p₀ + incs.sum →
      (simRun ⟨.processing, p₀⟩ incs).status = .success) := by
  constructor
  · rcases simRun_status_cases incs ⟨.processing, p₀⟩ rfl with h | h <;> simp [h]
  · intro hne hsum
    rcases simRun_status_cases incs ⟨.processing, p₀⟩ rfl with h | h
    · exfalso
      obtain ⟨hprog, hlt⟩ := simRun_processing_progress incs ⟨.processing, p₀⟩ rfl h
      rcases hlt with h0 | hlt
      · exact hne h0
      · rw [hprog] at hlt
        exact absurd hsum (by push_neg; exact hlt)
    · exact h

/-- Witness for C9: a run with two ticks of 60 never shows failed and ends
in success. -/
theorem c9_simulation_only_succeeds_witness :
    (simRun ⟨.processing, 0⟩ [60, 60]).status ≠ .failed ∧
    (simRun ⟨.processing, 0⟩ [60, 60]).status = .success := by
  have h := c9_simulation_only_succeeds 0 [60, 60]
  exact ⟨h.1, h.2 (by simp) (by norm_num)⟩

/-- Claim C10: the scene-preview step always produces exactly 4 scenes, with
pageNumber fixed at 1 and panelNumber running 1 through 4, for every story
text; previewScenes takes no plan input, so the panel count is independent
of the selected plan's page limit as well as of the story content. -/
theorem c10_preview_always_four_panels (storyText : String) :
    (previewScenes storyText).length = 4 ∧
    (previewScenes storyText).map (fun sc => (sc.pageNumber, sc.panelNumber)) =
      [(1, 1), (1, 2), (1, 3), (1, 4)] := by
  exact ⟨rfl, rfl⟩

end ComicAI
